import Mathlib

/-!
Verification of the detection core of the AI-powered presentation auditor.

Each definition below is a shallow embedding of a function of the Python
source (`models.py`, `detectors/numerical.py`, `detectors/percentage.py`,
`detectors/textual.py`, `detectors/timeline.py`).  Python floats are
modelled as rationals (`ℚ`), Python strings as `String`, Python lists as
`List`.  External services (the Gemini text oracle, the embedding service,
`dateparser`) are modelled as explicit parameters.  Rendering of numbers
into human-readable detail strings is abstracted by `ratStr`; no theorem
below depends on the rendered digits of a number.
-/

/-- Render a rational for use inside detail strings.  This abstracts the
Python float formatting; theorems never inspect the rendered digits. -/
def ratStr (q : ℚ) : String :=
  toString q.num ++ "/" ++ toString q.den

/-! ## Finding model (`models.py`, class `Issue`) -/

/-- Embedding of the dataclass `Issue` of `models.py`: slide numbers, an
issue type, a description, details, and a confidence score. -/
structure Issue where
  slides : List ℕ
  issue_type : String
  description : String
  details : String
  confidence : ℚ
deriving DecidableEq

/-- The ascending sort of an issue's slide list, as used by both
`Issue.__eq__` and `Issue.__hash__` (`sorted(self.slides)`). -/
def sorted_slides (i : Issue) : List ℕ :=
  i.slides.insertionSort (· ≤ ·)

/-- Embedding of `Issue.__eq__`: sorted slide lists, issue type,
description and details must match; confidence is not compared. -/
def issue_eq (a b : Issue) : Bool :=
  sorted_slides a == sorted_slides b &&
  a.issue_type == b.issue_type &&
  a.description == b.description &&
  a.details == b.details

/-- Embedding of the tuple hashed by `Issue.__hash__`:
`(tuple(sorted(slides)), issue_type, description, details)`.  The hash of
an issue is modelled by this key (equal keys give equal hashes). -/
def issue_hash_key (i : Issue) : List ℕ × String × String × String :=
  (sorted_slides i, i.issue_type, i.description, i.details)

/-- Insertion into a Python `set` of issues: a new element is dropped
when an `Issue.__eq__`-equal element is already present. -/
def set_insert (s : List Issue) (i : Issue) : List Issue :=
  if s.any (fun j => issue_eq j i) then s else s ++ [i]

/-! ## Numerical conflict detector (`detectors/numerical.py`) -/

/-- Embedding of `NumericalConflictDetector._values_within_tolerance`.
Both values zero: equal; exactly one zero: not equal; otherwise compare
the relative percentage difference against `tolerance_pct`
(`config.get('tolerance_pct', 1)`). -/
def values_within_tolerance (tolerance_pct val1 val2 : ℚ) : Bool :=
  if val1 = 0 ∧ val2 = 0 then true
  else if val1 = 0 ∨ val2 = 0 then false
  else decide (|val1 - val2| / max |val1| |val2| * 100 ≤ tolerance_pct)

/-- One occurrence of a metric value in the registry:
`(value, slide_num, sentence)` as in `_group_by_tolerance`. -/
abbrev Occurrence : Type := ℚ × ℕ × String

/-- One step of the greedy loop of `_group_by_tolerance`: walk the
existing groups in order, append the occurrence to the first group whose
representative (`group[0][0]`, the first-seen value) is within tolerance,
otherwise open a new singleton group at the end. -/
def insert_occurrence (tolerance_pct : ℚ) :
    List (List Occurrence) → Occurrence → List (List Occurrence)
  | [], occ => [[occ]]
  | g :: gs, occ =>
    if values_within_tolerance tolerance_pct occ.1 ((g.headD (0, 0, "")).1)
    then (g ++ [occ]) :: gs
    else g :: insert_occurrence tolerance_pct gs occ

/-- Embedding of `NumericalConflictDetector._group_by_tolerance`:
the greedy left-to-right clustering of occurrences. -/
def group_by_tolerance (tolerance_pct : ℚ) (occurrences : List Occurrence) :
    List (List Occurrence) :=
  occurrences.foldl (insert_occurrence tolerance_pct) []

/-- Numeric value of a digit list, most significant first. -/
def digitsToNat (ds : List Char) : ℕ :=
  ds.foldl (fun acc c => 10 * acc + (c.toNat - 48)) 0

/-- Value of a fractional digit block: `digits / 10 ^ length`. -/
def fracVal (ds : List Char) : ℚ :=
  (digitsToNat ds : ℚ) / (10 ^ ds.length)

/-- Parse an unsigned decimal numeral (digits, optionally a dot followed
by digits), the shapes produced by the tokenizer's capture group. -/
def parse_unsigned (cs : List Char) : Option ℚ :=
  let ds := cs.takeWhile Char.isDigit
  let rest := cs.dropWhile Char.isDigit
  if ds.isEmpty then none
  else
    match rest with
    | [] => some (digitsToNat ds : ℚ)
    | '.' :: fs =>
      if fs ≠ [] ∧ fs.all Char.isDigit
      then some ((digitsToNat ds : ℚ) + fracVal fs)
      else none
    | _ => none

/-- Embedding of Python `float(...)` on the numeral strings the number
tokenizer can emit (optional leading minus, digits, optional fraction). -/
def parse_float (s : String) : Option ℚ :=
  match s.data with
  | '-' :: rest => (parse_unsigned rest).map (fun q => -q)
  | cs => parse_unsigned cs

/-- Removal of thousands separators: `number_str.replace(',', '')`. -/
def remove_commas (s : String) : String :=
  ⟨s.data.filter (fun c => !(c == ','))⟩

/-- The suffix multiplier table of `_normalize_value`: `K/M/B/T` in
either case scale by `1e3/1e6/1e9/1e12`; any other suffix (and no
suffix) leaves the value unchanged (`multipliers.get(suffix, 1)`). -/
def suffix_multiplier (suffix : Option Char) : ℚ :=
  match suffix with
  | none => 1
  | some c =>
    if c == 'k' || c == 'K' then 1000
    else if c == 'm' || c == 'M' then 1000000
    else if c == 'b' || c == 'B' then 1000000000
    else if c == 't' || c == 'T' then 1000000000000
    else 1

/-- Embedding of `NumericalConflictDetector._normalize_value`: strip
commas, parse the number, multiply by the suffix magnitude; a value that
fails to parse becomes `0.0`. -/
def normalize_value (number_str : String) (suffix : Option Char) : ℚ :=
  match parse_float (remove_commas number_str) with
  | some v => v * suffix_multiplier suffix
  | none => 0

/-! ## Claim C1: the numeric tolerance predicate -/

/-- C1: with the default `tolerance_pct = 1`, `_values_within_tolerance`
returns true on `(0,0)`; false when exactly one argument is zero; and for
positive pairs it returns true iff `|a-b| / max(a,b) * 100 ≤ 1`. -/
theorem c1_values_within_tolerance_spec (a b : ℚ) :
    ((a = 0 ∧ b = 0) → values_within_tolerance 1 a b = true) ∧
    (((a = 0 ∧ b ≠ 0) ∨ (a ≠ 0 ∧ b = 0)) → values_within_tolerance 1 a b = false) ∧
    (0 < a → 0 < b →
      (values_within_tolerance 1 a b = true ↔ |a - b| / max a b * 100 ≤ 1)) := by
  refine ⟨fun h => ?_, fun h => ?_, fun ha hb => ?_⟩
  · simp [values_within_tolerance, h.1, h.2]
  · rcases h with ⟨h1, h2⟩ | ⟨h1, h2⟩ <;>
      simp [values_within_tolerance, h1, h2]
  · have ha' : a ≠ 0 := ne_of_gt ha
    have hb' : b ≠ 0 := ne_of_gt hb
    simp [values_within_tolerance, ha', hb', abs_of_pos ha, abs_of_pos hb]

/-- Witness for C1 at the concrete pairs `(0,0)`, `(0,2)` and `(100,101)`. -/
theorem c1_values_within_tolerance_spec_witness :
    values_within_tolerance 1 0 0 = true ∧
    values_within_tolerance 1 0 2 = false ∧
    (values_within_tolerance 1 100 101 = true ↔
      |(100 : ℚ) - 101| / max (100 : ℚ) 101 * 100 ≤ 1) :=
  ⟨(c1_values_within_tolerance_spec 0 0).1 ⟨rfl, rfl⟩,
   (c1_values_within_tolerance_spec 0 2).2.1 (Or.inl ⟨rfl, by norm_num⟩),
   (c1_values_within_tolerance_spec 100 101).2.2 (by norm_num) (by norm_num)⟩

/-! ## Claim C2: finding equality, hashing and deduplication -/

/-- C2: two issues are `__eq__`-equal iff their sorted slide lists, issue
types, descriptions and details all match; the hash key agrees with the
same quadruple (so equal findings hash equally); and a second issue that
is equal to one already in a set collapses: in particular two issues that
differ only in confidence collapse to one entry. -/
theorem c2_issue_equality_dedup (a b : Issue) :
    ((issue_eq a b = true) ↔
      (sorted_slides a = sorted_slides b ∧ a.issue_type = b.issue_type ∧
        a.description = b.description ∧ a.details = b.details)) ∧
    ((issue_hash_key a = issue_hash_key b) ↔
      (sorted_slides a = sorted_slides b ∧ a.issue_type = b.issue_type ∧
        a.description = b.description ∧ a.details = b.details)) ∧
    (issue_eq a b = true → set_insert (set_insert [] a) b = [a]) ∧
    (a.slides = b.slides → a.issue_type = b.issue_type →
      a.description = b.description → a.details = b.details →
      set_insert (set_insert [] a) b = [a]) := by
  have hiff : (issue_eq a b = true) ↔
      (sorted_slides a = sorted_slides b ∧ a.issue_type = b.issue_type ∧
        a.description = b.description ∧ a.details = b.details) := by
    simp [issue_eq, and_assoc]
  have hkey : (issue_hash_key a = issue_hash_key b) ↔
      (sorted_slides a = sorted_slides b ∧ a.issue_type = b.issue_type ∧
        a.description = b.description ∧ a.details = b.details) := by
    simp [issue_hash_key, Prod.ext_iff]
  have hcollapse : issue_eq a b = true → set_insert (set_insert [] a) b = [a] := by
    intro h
    simp [set_insert, h]
  refine ⟨hiff, hkey, hcollapse, fun h1 h2 h3 h4 => ?_⟩
  exact hcollapse (hiff.mpr ⟨by rw [sorted_slides, sorted_slides, h1], h2, h3, h4⟩)

/-- Witness for C2: two findings identical except for confidence `0.9`
versus `0.5` collapse to a single entry. -/
theorem c2_issue_equality_dedup_witness :
    set_insert
      (set_insert [] ⟨[2, 1], "numerical_conflict", "d", "x", 9/10⟩)
      ⟨[2, 1], "numerical_conflict", "d", "x", 1/2⟩ =
      [⟨[2, 1], "numerical_conflict", "d", "x", 9/10⟩] :=
  (c2_issue_equality_dedup
      ⟨[2, 1], "numerical_conflict", "d", "x", 9/10⟩
      ⟨[2, 1], "numerical_conflict", "d", "x", 1/2⟩).2.2.2
    rfl rfl rfl rfl

/-! ## Claim C4: numeric value normalization -/

/-- C4: `_normalize_value` on `"2"`+`K` gives `2000`, `"1.5"`+`M` gives
`1500000`, `"3"`+`B` gives `3e9`, `"1"`+`T` gives `1e12`, `"2,500"` with
no suffix gives `2500`; in general every parseable input yields the
comma-stripped parsed number times the suffix magnitude, and the
magnitude table is case-insensitive. -/
theorem c4_normalize_value_spec :
    normalize_value "2" (some 'K') = 2000 ∧
    normalize_value "1.5" (some 'M') = 1500000 ∧
    normalize_value "3" (some 'B') = 3000000000 ∧
    normalize_value "1" (some 'T') = 1000000000000 ∧
    normalize_value "2,500" none = 2500 ∧
    (∀ (s : String) (suf : Option Char) (v : ℚ),
      parse_float (remove_commas s) = some v →
      normalize_value s suf = v * suffix_multiplier suf) ∧
    (suffix_multiplier (some 'k') = suffix_multiplier (some 'K') ∧
     suffix_multiplier (some 'm') = suffix_multiplier (some 'M') ∧
     suffix_multiplier (some 'b') = suffix_multiplier (some 'B') ∧
     suffix_multiplier (some 't') = suffix_multiplier (some 'T')) := by
  refine ⟨?_, ?_, ?_, ?_, ?_, fun s suf v h => by simp [normalize_value, h],
    by norm_num +decide [suffix_multiplier], by norm_num +decide [suffix_multiplier],
    by norm_num +decide [suffix_multiplier], by norm_num +decide [suffix_multiplier]⟩ <;>
  norm_num +decide [normalize_value, parse_float, remove_commas, parse_unsigned,
    fracVal, suffix_multiplier,
    show digitsToNat ['2'] = 2 from by decide,
    show digitsToNat ['1'] = 1 from by decide,
    show digitsToNat ['3'] = 3 from by decide,
    show digitsToNat ['5'] = 5 from by decide,
    show digitsToNat ['2', '5', '0', '0'] = 2500 from by decide]

/-- Witness for C4's general clause at `s = "2,500"`, no suffix. -/
theorem c4_normalize_value_spec_witness :
    normalize_value "2,500" none = 2500 * suffix_multiplier none :=
  c4_normalize_value_spec.2.2.2.2.2.1 "2,500" none 2500
    (by norm_num +decide [parse_float, remove_commas, parse_unsigned,
      show digitsToNat ['2', '5', '0', '0'] = 2500 from by decide])

/-! ## Claim C9: symmetry of the tolerance test versus order-dependence
of the greedy clustering -/

/-- First sample input for the clustering: values 100, 101, 102. -/
def c9_occs_a : List Occurrence := [(100, 1, "s1"), (101, 2, "s2"), (102, 3, "s3")]

/-- The same occurrences with the first two swapped. -/
def c9_occs_b : List Occurrence := [(101, 2, "s2"), (100, 1, "s1"), (102, 3, "s3")]

/-- C9: `_values_within_tolerance` is symmetric in its two values, yet
`_group_by_tolerance` is order-dependent: the permuted lists
`[100, 101, 102]` and `[101, 100, 102]` produce two clusters versus one,
because each cluster is compared against its first-seen representative. -/
theorem c9_tolerance_symmetric_grouping_order_dependent :
    (∀ tol a b : ℚ,
      values_within_tolerance tol a b = values_within_tolerance tol b a) ∧
    c9_occs_a.Perm c9_occs_b ∧
    (group_by_tolerance 1 c9_occs_a).length = 2 ∧
    (group_by_tolerance 1 c9_occs_b).length = 1 := by
  refine ⟨fun tol a b => ?_, ?_,
    by norm_num [group_by_tolerance, insert_occurrence, values_within_tolerance,
      c9_occs_a],
    by norm_num [group_by_tolerance, insert_occurrence, values_within_tolerance,
      c9_occs_b]⟩
  · unfold values_within_tolerance
    rw [abs_sub_comm, max_comm (|a|) (|b|)]
    by_cases h1 : a = 0 <;> by_cases h2 : b = 0 <;> simp [h1, h2]
  · exact List.Perm.swap (101, 2, "s2") (100, 1, "s1") [(102, 3, "s3")]

/-! ## Percentage sanity detector (`detectors/percentage.py`) -/

/-- The integer-then-optional-fraction step of the percentage tokenizer
`(\d+(?:\.\d+)?)\s*%`: after the integer digits, an optional dot followed
by at least one digit contributes a fractional part; a dot not followed
by a digit is left unconsumed. Returns the fractional value and the
remaining characters. -/
def frac_part (rest : List Char) : ℚ × List Char :=
  match rest with
  | '.' :: more =>
    if (more.takeWhile Char.isDigit).isEmpty then (0, rest)
    else (fracVal (more.takeWhile Char.isDigit), more.dropWhile Char.isDigit)
  | _ => (0, rest)

/-- Attempt to match the percentage tokenizer `(\d+(?:\.\d+)?)\s*%` at
the head of the character list: one or more digits, an optional
fraction, optional whitespace, then a percent sign.  On success returns
the numeric value of the first capture group and the characters after
the match. -/
def match_percent_at (cs : List Char) : Option (ℚ × List Char) :=
  let ds := cs.takeWhile Char.isDigit
  if ds.isEmpty then none
  else
    let fp := frac_part (cs.dropWhile Char.isDigit)
    match fp.2.dropWhile Char.isWhitespace with
    | '%' :: tail => some ((digitsToNat ds : ℚ) + fp.1, tail)
    | _ => none

/-- Fuel-indexed scan implementing `percentage_pattern.finditer`: try the
pattern at every position, left to right, continuing after each
non-overlapping match.  A successful match always consumes at least two
characters, so fuel equal to the string length is sufficient. -/
def scan_percent_aux : ℕ → List Char → List ℚ
  | 0, _ => []
  | _ + 1, [] => []
  | fuel + 1, c :: rest =>
    match match_percent_at (c :: rest) with
    | some (v, tail) => v :: scan_percent_aux fuel tail
    | none => scan_percent_aux fuel rest

/-- All percentage values found in a string, in match order: the
embedding of iterating `percentage_pattern.finditer(text)` and
converting each first capture group with `float`. -/
def scan_percentages (s : String) : List ℚ :=
  scan_percent_aux s.data.length s.data

/-- Responses of the Gemini oracle consumed by `_check_text_percentages`:
the verdict of `_is_valid_over_100_percent` for the n-th percentage
match, and the group list parsed from the response of
`_find_percentage_groups_with_llm`. -/
structure PercentageOracle where
  valid_over_100 : ℕ → Bool
  percentage_groups : List (List ℚ)

/-- Python `enumerate`, used to give each percentage match its index. -/
def enum_from : ℕ → List ℚ → List (ℕ × ℚ)
  | _, [] => []
  | n, a :: as => (n, a) :: enum_from (n + 1) as

/-- The finding emitted by the negative branch of
`_check_text_percentages` (confidence 1.0). -/
def negative_percentage_issue (slide_num : ℕ) (v : ℚ) (ctx : String) : Issue :=
  ⟨[slide_num], "invalid_percentage", "Negative percentage detected",
    "Found " ++ ratStr v ++ "% in slide " ++ ctx, 1⟩

/-- The finding emitted by the over-100 branch of
`_check_text_percentages` when the oracle did not validate the value
(confidence 0.8). -/
def over_100_issue (slide_num : ℕ) (v : ℚ) (ctx : String) : Issue :=
  ⟨[slide_num], "invalid_percentage", "Percentage exceeds 100%",
    "Found " ++ ratStr v ++ "% in slide " ++ ctx ++ " - may need validation", 4/5⟩

/-- The finding emitted by `_check_percentage_group_sum` (confidence 0.7). -/
def percentage_sum_issue (slide_num : ℕ) (n : ℕ) (total : ℚ) (ctx : String) : Issue :=
  ⟨[slide_num], "percentage_sum_error", "Related percentages don't sum to 100%",
    "Found " ++ toString n ++ " related percentages in " ++ ctx ++ " summing to " ++
      ratStr total ++ "% (expected: ~100%)", 7/10⟩

/-- Embedding of `PercentageSanityDetector._check_percentage_group_sum`:
a group of at least two percentages whose sum deviates from 100 by more
than `total_tolerance_pp` (`config.get('total_tolerance_pp', 1)`) yields
one `percentage_sum_error` finding. -/
def check_percentage_group_sum (total_tolerance_pp : ℚ) (slide_num : ℕ)
    (group : List ℚ) (ctx : String) : List Issue :=
  if group.length < 2 then []
  else if total_tolerance_pp < |group.sum - 100|
  then [percentage_sum_issue slide_num group.length group.sum ctx]
  else []

/-- Embedding of `PercentageSanityDetector._check_text_percentages`:
scan the text for percentages; flag negatives and oracle-rejected
over-100 values individually; then ask the grouping oracle
(`_find_percentage_groups_with_llm`, which returns `[]` without a call
when fewer than two percentages exist) and check each returned group's
sum. -/
def check_text_percentages (total_tolerance_pp : ℚ) (slide_num : ℕ)
    (text : String) (ctx : String) (oracle : PercentageOracle) : List Issue :=
  if text.data.isEmpty then []
  else
    let percentages := scan_percentages text
    if percentages.isEmpty then []
    else
      let individual := (enum_from 0 percentages).flatMap (fun p =>
        if p.2 < 0 then [negative_percentage_issue slide_num p.2 ctx]
        else if 100 < p.2 then
          if oracle.valid_over_100 p.1 then [] else [over_100_issue slide_num p.2 ctx]
        else [])
      let groups := if percentages.length < 2 then [] else oracle.percentage_groups
      individual ++
        groups.flatMap (fun g => check_percentage_group_sum total_tolerance_pp slide_num g ctx)

/-- Lower-casing of a whole string (`table_str.lower()`). -/
def strLower (s : String) : String :=
  ⟨s.data.map Char.toLower⟩

/-- Character-list equality on a prefix: does `needle` start `hay`? -/
def chars_match : List Char → List Char → Bool
  | [], _ => true
  | _ :: _, [] => false
  | n :: ns, h :: hs => n == h && chars_match ns hs

/-- Substring containment on character lists (Python's `in`). -/
def contains_sub : List Char → List Char → Bool
  | [], needle => needle.isEmpty
  | c :: rest, needle => chars_match needle (c :: rest) || contains_sub rest needle

/-- The breakdown vocabulary of `_table_should_sum_to_100`. -/
def breakdown_keywords : List String :=
  ["share", "distribution", "breakdown", "composition",
   "allocation", "split", "portion", "segment", "division",
   "market share", "budget", "time spent", "resource"]

/-- Embedding of `PercentageSanityDetector._table_should_sum_to_100`:
fewer than two percentages never sum; breakdown vocabulary in the
lowered table text forces the check; otherwise a total inside the
80..120 band (with at least two values) forces it. Purely local: no
oracle parameter. -/
def table_should_sum_to_100 (table_str : String) (percentages : List ℚ) : Bool :=
  if percentages.length < 2 then false
  else
    let lowered := strLower table_str
    if breakdown_keywords.any (fun k => contains_sub lowered.data k.data) then true
    else if 80 ≤ percentages.sum ∧ percentages.sum ≤ 120 ∧ 2 ≤ percentages.length
    then true
    else false

/-- The negative-percentage finding of the table path (confidence 1.0). -/
def negative_table_issue (slide_num : ℕ) (v : ℚ) (table_idx : ℕ) : Issue :=
  ⟨[slide_num], "invalid_percentage", "Negative percentage in table",
    "Found " ++ ratStr v ++ "% in table " ++ toString (table_idx + 1), 1⟩

/-- The over-100 finding of the table path (confidence 0.7). -/
def over_100_table_issue (slide_num : ℕ) (v : ℚ) (table_idx : ℕ) : Issue :=
  ⟨[slide_num], "invalid_percentage", "Percentage exceeds 100% in table",
    "Found " ++ ratStr v ++ "% in table " ++ toString (table_idx + 1) ++
      " - verify if this represents growth/improvement vs. composition", 7/10⟩

/-- The table-sum finding (confidence 0.8). -/
def table_sum_issue (slide_num : ℕ) (table_idx : ℕ) (total : ℚ) : Issue :=
  ⟨[slide_num], "percentage_sum_error", "Table percentages don't sum to 100%",
    "Table " ++ toString (table_idx + 1) ++ " percentages sum to " ++ ratStr total ++
      "% (expected: ~100%)", 4/5⟩

/-- Embedding of `PercentageSanityDetector._check_table_percentages`,
operating on the rendered table text (`table.to_string()`): individual
negative / over-100 checks, then the standalone 80..120-band sum rule of
`_table_should_sum_to_100`.  No oracle parameter appears: this path
makes no oracle call. -/
def check_table_percentages (total_tolerance_pp : ℚ) (slide_num : ℕ)
    (table_str : String) (table_idx : ℕ) : List Issue :=
  let percentages := scan_percentages table_str
  if percentages.isEmpty then []
  else
    let individual := percentages.flatMap (fun v =>
      if v < 0 then [negative_table_issue slide_num v table_idx]
      else if 100 < v then [over_100_table_issue slide_num v table_idx]
      else [])
    let sums :=
      if table_should_sum_to_100 table_str percentages then
        if total_tolerance_pp < |percentages.sum - 100|
        then [table_sum_issue slide_num table_idx percentages.sum]
        else []
      else []
    individual ++ sums

/-- The fractional part captured by the percentage tokenizer is
nonnegative. -/
theorem frac_part_fst_nonneg (rest : List Char) : 0 ≤ (frac_part rest).1 := by
  unfold frac_part
  split
  · split
    · simp
    · simp only [fracVal]
      positivity
  · simp

/-- The characters left over by the fractional-part step are no more
numerous than the input. -/
theorem frac_part_snd_length (rest : List Char) :
    (frac_part rest).2.length ≤ rest.length := by
  unfold frac_part
  split
  · rename_i more
    split
    · simp
    · calc (more.dropWhile Char.isDigit).length ≤ more.length :=
            (List.dropWhile_sublist _).length_le
        _ ≤ ('.' :: more).length := by simp
  · simp

/-- A successful percentage match consumes at least the digits and the
percent sign, so the remaining characters are strictly fewer: fuel equal
to the string length is enough for `scan_percent_aux`. -/
theorem match_percent_at_shrinks {cs : List Char} {v : ℚ} {tail : List Char}
    (h : match_percent_at cs = some (v, tail)) : tail.length < cs.length := by
  simp only [match_percent_at] at h
  split at h
  · exact absurd h (by simp)
  · rename_i hds
    split at h
    · rename_i t heq
      simp only [Option.some.injEq, Prod.mk.injEq] at h
      have h1 : ('%' :: t).length ≤ (frac_part (cs.dropWhile Char.isDigit)).2.length := by
        rw [← heq]
        exact (List.dropWhile_sublist _).length_le
      have h2 := frac_part_snd_length (cs.dropWhile Char.isDigit)
      have h3 : (cs.dropWhile Char.isDigit).length < cs.length := by
        have hlen :=
          congrArg List.length (List.takeWhile_append_dropWhile Char.isDigit cs)
        rw [List.length_append] at hlen
        have hpos : 0 < (cs.takeWhile Char.isDigit).length := by
          cases hne : cs.takeWhile Char.isDigit with
          | nil => exact absurd (by simp [hne]) hds
          | cons x xs => simp
        omega
      have ht : t = tail := h.2
      subst ht
      simp only [List.length_cons] at h1
      omega
    · exact absurd h (by simp)

/-- The value captured by a percentage match is a digit value plus a
nonnegative fraction, hence nonnegative. -/
theorem match_percent_at_nonneg {cs : List Char} {v : ℚ} {tail : List Char}
    (h : match_percent_at cs = some (v, tail)) : 0 ≤ v := by
  simp only [match_percent_at] at h
  split at h
  · exact absurd h (by simp)
  · split at h
    · simp only [Option.some.injEq, Prod.mk.injEq] at h
      rw [← h.1]
      have hfp := frac_part_fst_nonneg (cs.dropWhile Char.isDigit)
      positivity
    · exact absurd h (by simp)

/-- Every value produced by the percentage scanner is nonnegative. -/
theorem scan_percent_aux_nonneg :
    ∀ (fuel : ℕ) (cs : List Char), ∀ v ∈ scan_percent_aux fuel cs, 0 ≤ v := by
  intro fuel
  induction fuel with
  | zero => intro cs v hv; simp [scan_percent_aux] at hv
  | succ n ih =>
    intro cs v hv
    cases cs with
    | nil => simp [scan_percent_aux] at hv
    | cons c rest =>
      simp only [scan_percent_aux] at hv
      cases hm : match_percent_at (c :: rest) with
      | none => rw [hm] at hv; exact ih rest v hv
      | some p =>
        obtain ⟨w, tail⟩ := p
        rw [hm] at hv
        rcases List.mem_cons.mp hv with h | h
        · subst h; exact match_percent_at_nonneg hm
        · exact ih tail v h

/-- Every entry of the enumeration comes from the underlying list. -/
theorem enum_from_mem {n : ℕ} {l : List ℚ} {p : ℕ × ℚ}
    (h : p ∈ enum_from n l) : p.2 ∈ l := by
  induction l generalizing n with
  | nil => simp [enum_from] at h
  | cons a as ih =>
    simp only [enum_from, List.mem_cons] at h
    rcases h with h | h
    · subst h; simp
    · exact List.mem_cons_of_mem _ (ih h)

/-! ## Claim C10: negative-percentage branches are unreachable -/

/-- C10: the percentage tokenizer captures only unsigned numerals, so
every scanned value is nonnegative, and consequently neither the text
path nor the table path can ever emit a "Negative percentage detected" /
"Negative percentage in table" finding, for any input and any oracle. -/
theorem c10_negative_branches_unreachable :
    (∀ (s : String), ∀ v ∈ scan_percentages s, 0 ≤ v) ∧
    (∀ (tol : ℚ) (slide_num : ℕ) (text ctx : String) (oracle : PercentageOracle),
      ∀ i ∈ check_text_percentages tol slide_num text ctx oracle,
        i.description ≠ "Negative percentage detected") ∧
    (∀ (tol : ℚ) (slide_num : ℕ) (table_str : String) (table_idx : ℕ),
      ∀ i ∈ check_table_percentages tol slide_num table_str table_idx,
        i.description ≠ "Negative percentage in table") := by
  have hscan : ∀ (s : String), ∀ v ∈ scan_percentages s, 0 ≤ v :=
    fun s v hv => scan_percent_aux_nonneg _ _ v hv
  refine ⟨hscan, ?_, ?_⟩
  · intro tol slide_num text ctx oracle i hi
    simp only [check_text_percentages] at hi
    split at hi
    · simp at hi
    · split at hi
      · simp at hi
      · rw [List.mem_append] at hi
        rcases hi with hi | hi
        · rw [List.mem_flatMap] at hi
          obtain ⟨p, hp, hip⟩ := hi
          have hv : 0 ≤ p.2 := hscan text p.2 (enum_from_mem hp)
          split at hip
          · rename_i hneg
            exact absurd hneg (not_lt.mpr hv)
          · split at hip
            · split at hip
              · simp at hip
              · rw [List.mem_singleton] at hip
                subst hip
                simp only [over_100_issue]
                decide
            · simp at hip
        · rw [List.mem_flatMap] at hi
          obtain ⟨g, hg, hig⟩ := hi
          simp only [check_percentage_group_sum] at hig
          split at hig
          · simp at hig
          · split at hig
            · rw [List.mem_singleton] at hig
              subst hig
              simp only [percentage_sum_issue]
              decide
            · simp at hig
  · intro tol slide_num table_str table_idx i hi
    simp only [check_table_percentages] at hi
    split at hi
    · simp at hi
    · rw [List.mem_append] at hi
      rcases hi with hi | hi
      · rw [List.mem_flatMap] at hi
        obtain ⟨v, hv, hiv⟩ := hi
        have hnn : 0 ≤ v := hscan table_str v hv
        split at hiv
        · rename_i hneg
          exact absurd hneg (not_lt.mpr hnn)
        · split at hiv
          · rw [List.mem_singleton] at hiv
            subst hiv
            simp only [over_100_table_issue]
            decide
          · simp at hiv
      · split at hi
        · split at hi
          · rw [List.mem_singleton] at hi
            subst hi
            simp only [table_sum_issue]
            decide
          · simp at hi
        · simp at hi

/-- Witness for C10: the scanned value of `"50%"` is nonnegative, and
the over-100 findings that `"150%"` produces on both paths are not the
negative-percentage finding. -/
theorem c10_negative_branches_unreachable_witness :
    (0 : ℚ) ≤ 50 ∧
    (over_100_issue 3 150 "text").description ≠ "Negative percentage detected" ∧
    (over_100_table_issue 3 150 0).description ≠ "Negative percentage in table" := by
  refine ⟨c10_negative_branches_unreachable.1 "50%" 50 ?_,
    c10_negative_branches_unreachable.2.1 1 3 "150%" "text" ⟨fun _ => false, []⟩ _ ?_,
    c10_negative_branches_unreachable.2.2 1 3 "150%" 0 _ ?_⟩
  · norm_num +decide [scan_percentages, scan_percent_aux, match_percent_at, frac_part,
      show digitsToNat ['5', '0'] = 50 from by decide]
  · norm_num +decide [check_text_percentages, enum_from, scan_percentages,
      scan_percent_aux, match_percent_at, frac_part,
      show digitsToNat ['1', '5', '0'] = 150 from by decide]
  · norm_num +decide [check_table_percentages, table_should_sum_to_100,
      scan_percentages, scan_percent_aux, match_percent_at, frac_part,
      show digitsToNat ['1', '5', '0'] = 150 from by decide]

/-! ## Claim C8: the percentage-sum rule on `[45, 35, 25]` -/

/-- Oracle response in which `_find_percentage_groups_with_llm` groups
the three percentages together. -/
def c8_oracle_grouping : PercentageOracle := ⟨fun _ => false, [[45, 35, 25]]⟩

/-- Oracle response in which the grouping call returns no groups (as it
also does on any unparseable response). -/
def c8_oracle_no_groups : PercentageOracle := ⟨fun _ => false, []⟩

/-- The scanner finds exactly the three percentages in the sample text. -/
theorem scan_sample_45_35_25 : scan_percentages "45% 35% 25%" = [45, 35, 25] := by
  norm_num +decide [scan_percentages, scan_percent_aux, match_percent_at, frac_part,
    show digitsToNat ['4', '5'] = 45 from by decide,
    show digitsToNat ['3', '5'] = 35 from by decide,
    show digitsToNat ['2', '5'] = 25 from by decide]

/-- Counterexample to C8 as stated: on the text path the sum finding for
`[45, 35, 25]` is not produced standalone — it depends on the LLM
grouping oracle.  When the grouping response is empty the slide yields
no `percentage_sum_error` at all, and the two oracle responses give
different outputs. -/
theorem c8_text_sum_error_requires_oracle :
    ((check_text_percentages 1 3 "45% 35% 25%" "text" c8_oracle_no_groups).filter
        (fun i => i.issue_type == "percentage_sum_error")) = [] ∧
    check_text_percentages 1 3 "45% 35% 25%" "text" c8_oracle_grouping ≠
      check_text_percentages 1 3 "45% 35% 25%" "text" c8_oracle_no_groups := by
  have h1 : check_text_percentages 1 3 "45% 35% 25%" "text" c8_oracle_no_groups = [] := by
    norm_num +decide [check_text_percentages, scan_percentages, scan_percent_aux,
      match_percent_at, frac_part, enum_from, c8_oracle_no_groups,
      show digitsToNat ['4', '5'] = 45 from by decide,
      show digitsToNat ['3', '5'] = 35 from by decide,
      show digitsToNat ['2', '5'] = 25 from by decide]
  have h2 : check_text_percentages 1 3 "45% 35% 25%" "text" c8_oracle_grouping =
      [percentage_sum_issue 3 3 105 "text"] := by
    norm_num +decide [check_text_percentages, scan_percentages, scan_percent_aux,
      match_percent_at, frac_part, enum_from, c8_oracle_grouping,
      check_percentage_group_sum, List.sum_cons, List.sum_nil,
      show digitsToNat ['4', '5'] = 45 from by decide,
      show digitsToNat ['3', '5'] = 35 from by decide,
      show digitsToNat ['2', '5'] = 25 from by decide]
  refine ⟨by rw [h1]; rfl, by rw [h1, h2]; simp⟩

/-- C8 amended: the standalone no-oracle sum rule lives on the table
path — a table rendering containing exactly `45% 35% 25%` (sum 105,
inside the 80..120 band, deviation 5 above the tolerance) yields exactly
one `percentage_sum_error` finding referencing the slide, from a
function with no oracle parameter; on the text path the same finding is
emitted exactly when the grouping oracle groups the three values. -/
theorem c8_percentage_sum_amended :
    check_table_percentages 1 3 "45% 35% 25%" 0 = [table_sum_issue 3 0 105] ∧
    (table_sum_issue 3 0 105).issue_type = "percentage_sum_error" ∧
    (table_sum_issue 3 0 105).slides = [3] ∧
    check_text_percentages 1 3 "45% 35% 25%" "text" c8_oracle_grouping =
      [percentage_sum_issue 3 3 105 "text"] ∧
    (percentage_sum_issue 3 3 105 "text").issue_type = "percentage_sum_error" ∧
    (percentage_sum_issue 3 3 105 "text").slides = [3] := by
  refine ⟨?_, rfl, rfl, ?_, rfl, rfl⟩
  · norm_num +decide [check_table_percentages, table_should_sum_to_100,
      scan_percentages, scan_percent_aux, match_percent_at, frac_part,
      breakdown_keywords, contains_sub, chars_match, strLower,
      List.sum_cons, List.sum_nil,
      show digitsToNat ['4', '5'] = 45 from by decide,
      show digitsToNat ['3', '5'] = 35 from by decide,
      show digitsToNat ['2', '5'] = 25 from by decide]
  · norm_num +decide [check_text_percentages, scan_percentages, scan_percent_aux,
      match_percent_at, frac_part, enum_from, c8_oracle_grouping,
      check_percentage_group_sum, List.sum_cons, List.sum_nil,
      show digitsToNat ['4', '5'] = 45 from by decide,
      show digitsToNat ['3', '5'] = 35 from by decide,
      show digitsToNat ['2', '5'] = 25 from by decide]

/-! ## Timeline mismatch detector (`detectors/timeline.py`) -/

/-- Embedding of the dataclass `TimelineEvent`.  Calendar dates enter
the conflict checks only through their order and their printed form, so
they are modelled by a day ordinal. -/
structure TimelineEvent where
  slide_num : ℕ
  date : ℕ
  description : String
  context : String
  event_type : String
  confidence : ℚ
deriving DecidableEq

/-- The stopword set removed by `_events_seem_related`. -/
def common_words : List String :=
  ["the", "a", "an", "and", "or", "but", "in", "on", "at", "to",
   "for", "of", "with", "by", "[date]"]

/-- The project vocabulary granting the relatedness bonus. -/
def project_terms : List String :=
  ["project", "launch", "product", "feature", "system", "platform", "service"]

/-- Accumulator pass behind `split_words`: split a character list on
whitespace runs, dropping empty pieces (Python `str.split()`). -/
def words_aux : List Char → List Char → List String
  | [], acc => if acc.isEmpty then [] else [⟨acc.reverse⟩]
  | c :: rest, acc =>
    if c.isWhitespace then
      (if acc.isEmpty then [] else [⟨acc.reverse⟩]) ++ words_aux rest []
    else words_aux rest (c :: acc)

/-- Python `str.split()` on whitespace. -/
def split_words (s : String) : List String :=
  words_aux s.data []

/-- The word set of an event description used by the relatedness test:
`set(description.lower().split())` minus the stopwords. -/
def event_word_set (e : TimelineEvent) : List String :=
  ((split_words (strLower e.description)).dedup).filter
    (fun w => !(common_words.contains w))

/-- Embedding of `TimelineMismatchDetector._events_seem_related`: word
overlap over the smaller description word set, with a 0.2 bonus when
both descriptions contain project vocabulary; related when the score
exceeds 0.25. -/
def events_seem_related (e1 e2 : TimelineEvent) : Bool :=
  let w1 := event_word_set e1
  let w2 := event_word_set e2
  if w1.length = 0 ∨ w2.length = 0 then false
  else
    let overlap := (w1.filter (fun w => w2.contains w)).length
    let sim : ℚ := (overlap : ℚ) / ((min w1.length w2.length : ℕ) : ℚ)
    let sim2 :=
      if w1.any (fun w => project_terms.contains w) &&
          w2.any (fun w => project_terms.contains w)
      then sim + 1/5 else sim
    decide (1/4 < sim2)

/-- All ordered pairs `(events[i], events[j])` with `i < j`, the
iteration order of the double loop in `_check_chronological_order`. -/
def pairs_after {α : Type} : List α → List (α × α)
  | [] => []
  | e :: rest => rest.map (fun e2 => (e, e2)) ++ pairs_after rest

/-- The guard of `_check_chronological_order`: cross-slide, future
before past by date, related. -/
def chron_cond (e1 e2 : TimelineEvent) : Bool :=
  !(e1.slide_num == e2.slide_num) && e1.event_type == "future" &&
    e2.event_type == "past" && decide (e1.date < e2.date) &&
    events_seem_related e1 e2

/-- The `chronological_mismatch` finding, confidence
`min(conf1, conf2) * 0.9`. -/
def chron_issue (e1 e2 : TimelineEvent) : Issue :=
  ⟨[e1.slide_num, e2.slide_num], "chronological_mismatch",
    "Future event scheduled before related past event",
    "Slide " ++ toString e1.slide_num ++ ": Future event on " ++ toString e1.date ++
      " vs Slide " ++ toString e2.slide_num ++ ": Past event on " ++ toString e2.date,
    min e1.confidence e2.confidence * (9/10)⟩

/-- Embedding of `TimelineMismatchDetector._check_chronological_order`. -/
def check_chronological_order (events : List TimelineEvent) : List Issue :=
  (pairs_after events).filterMap (fun p =>
    if chron_cond p.1 p.2 then some (chron_issue p.1 p.2) else none)

/-- Completion-or-deadline event classification of
`_check_completion_conflicts`. -/
def is_completion_type (e : TimelineEvent) : Bool :=
  e.event_type == "completion" || e.event_type == "deadline"

/-- The guard of `_check_completion_conflicts`: cross-slide, a future or
ongoing event dated after the completion event, related. -/
def completion_cond (ce oe : TimelineEvent) : Bool :=
  !(ce.slide_num == oe.slide_num) &&
    (oe.event_type == "future" || oe.event_type == "ongoing") &&
    decide (ce.date < oe.date) && events_seem_related ce oe

/-- The `completion_conflict` finding, confidence
`min(conf1, conf2) * 0.8`. -/
def completion_issue (ce oe : TimelineEvent) : Issue :=
  ⟨[ce.slide_num, oe.slide_num], "completion_conflict",
    "Event scheduled after completion/deadline date",
    "Completion/deadline by " ++ toString ce.date ++ " (slide " ++
      toString ce.slide_num ++ ") but related event on " ++ toString oe.date ++
      " (slide " ++ toString oe.slide_num ++ ")",
    min ce.confidence oe.confidence * (4/5)⟩

/-- Embedding of `TimelineMismatchDetector._check_completion_conflicts`. -/
def check_completion_conflicts (events : List TimelineEvent) : List Issue :=
  let completion_events := events.filter is_completion_type
  let other_events := events.filter (fun e => !(is_completion_type e))
  (completion_events.flatMap (fun ce => other_events.map (fun oe => (ce, oe)))).filterMap
    (fun p => if completion_cond p.1 p.2 then some (completion_issue p.1 p.2) else none)

/-- Stable date sort used inside `_check_impossible_timelines`
(`slide_events.sort(key=lambda x: x.date)`). -/
def sort_by_date (es : List TimelineEvent) : List TimelineEvent :=
  es.mergeSort (fun a b => decide (a.date ≤ b.date))

/-- The in-slide guard: a future-typed event sorted immediately before a
past-typed event with a later date. -/
def impossible_cond (e1 e2 : TimelineEvent) : Bool :=
  e1.event_type == "future" && e2.event_type == "past" && decide (e1.date < e2.date)

/-- The `impossible_timeline` finding, confidence
`min(conf1, conf2) * 0.9`. -/
def impossible_issue (slide_num : ℕ) (e1 e2 : TimelineEvent) : Issue :=
  ⟨[slide_num], "impossible_timeline", "Inconsistent timeline within slide",
    "Slide " ++ toString slide_num ++ ": Future event (" ++ toString e1.date ++
      ") occurs before past event (" ++ toString e2.date ++ ")",
    min e1.confidence e2.confidence * (9/10)⟩

/-- The slide numbers in first-occurrence order, the iteration order of
the per-slide dictionary built by `_check_impossible_timelines`. -/
def slide_keys (events : List TimelineEvent) : List ℕ :=
  (events.map (fun e => e.slide_num)).dedup

/-- Embedding of `TimelineMismatchDetector._check_impossible_timelines`:
group events by slide, sort each slide's events by date, and flag every
adjacent future-then-past inversion. -/
def check_impossible_timelines (events : List TimelineEvent) : List Issue :=
  (slide_keys events).flatMap (fun s =>
    let slide_events := events.filter (fun e => e.slide_num == s)
    if slide_events.length < 2 then []
    else
      let sorted := sort_by_date slide_events
      (sorted.zip sorted.tail).filterMap (fun p =>
        if impossible_cond p.1 p.2 then some (impossible_issue s p.1 p.2) else none))

/-- The guard of `_check_deadline_violations`: cross-slide, future event
dated after the deadline, related. -/
def deadline_cond (d f : TimelineEvent) : Bool :=
  !(d.slide_num == f.slide_num) && decide (d.date < f.date) &&
    events_seem_related d f

/-- The `deadline_violation` finding, confidence
`min(conf1, conf2) * 0.85`. -/
def deadline_issue (d f : TimelineEvent) : Issue :=
  ⟨[d.slide_num, f.slide_num], "deadline_violation",
    "Future event scheduled after deadline",
    "Deadline: " ++ toString d.date ++ " (slide " ++ toString d.slide_num ++
      ") but future event: " ++ toString f.date ++ " (slide " ++
      toString f.slide_num ++ ")",
    min d.confidence f.confidence * (17/20)⟩

/-- Embedding of `TimelineMismatchDetector._check_deadline_violations`. -/
def check_deadline_violations (events : List TimelineEvent) : List Issue :=
  let deadline_events := events.filter (fun e => e.event_type == "deadline")
  let future_events := events.filter (fun e => e.event_type == "future")
  (deadline_events.flatMap (fun d => future_events.map (fun f => (d, f)))).filterMap
    (fun p => if deadline_cond p.1 p.2 then some (deadline_issue p.1 p.2) else none)

/-- A calendar date as carried by extracted timeline events. -/
structure CalDate where
  year : ℕ
  month : ℕ
  day : ℕ
deriving DecidableEq

/-- Embedding of `TimelineMismatchDetector._is_reasonable_date`:
`1980 <= year <= current_year + 30`. -/
def is_reasonable_date (current_year : ℕ) (d : CalDate) : Bool :=
  decide (1980 ≤ d.year) && decide (d.year ≤ current_year + 30)

/-- The fiscal-quarter recognizer of `_parse_date`
(`re.match(r'Q[1-4]\s+\d{4}', ...)` followed by
`re.match(r'Q(\d)\s+(\d{4})', ...)`, case-insensitive on the `Q`):
returns the quarter and the year. -/
def match_quarter (s : String) : Option (ℕ × ℕ) :=
  match s.data with
  | c0 :: c1 :: rest =>
    if (c0 == 'Q' || c0 == 'q') && (decide ('1' ≤ c1) && decide (c1 ≤ '4')) then
      if (rest.takeWhile Char.isWhitespace).isEmpty then none
      else
        match rest.dropWhile Char.isWhitespace with
        | d1 :: d2 :: d3 :: d4 :: _ =>
          if d1.isDigit && d2.isDigit && d3.isDigit && d4.isDigit then
            some (c1.toNat - 48, digitsToNat [d1, d2, d3, d4])
          else none
        | _ => none
    else none
  | _ => none

/-- Embedding of `TimelineMismatchDetector._parse_date`.  The flexible
`dateparser.parse` library call is the external parameter
`dateparser_parse`.  A quarter string returns the middle month of the
quarter directly; any other string goes through `dateparser` and is then
filtered by `_is_reasonable_date`. -/
def parse_date (current_year : ℕ) (dateparser_parse : String → Option CalDate)
    (date_str : String) : Option CalDate :=
  match match_quarter date_str with
  | some (q, y) => some ⟨y, (q - 1) * 3 + 2, 15⟩
  | none =>
    match dateparser_parse date_str with
    | some d => if is_reasonable_date current_year d then some d else none
    | none => none

/-- Both components of a strict-upper-triangle pair come from the list. -/
theorem pairs_after_mem {α : Type} {p : α × α} :
    ∀ {l : List α}, p ∈ pairs_after l → p.1 ∈ l ∧ p.2 ∈ l := by
  intro l
  induction l with
  | nil => intro h; simp [pairs_after] at h
  | cons e rest ih =>
    intro h
    simp only [pairs_after, List.mem_append, List.mem_map] at h
    rcases h with ⟨e2, he2, heq⟩ | h
    · rw [← heq]
      exact ⟨List.mem_cons_self _ _, List.mem_cons_of_mem _ he2⟩
    · obtain ⟨h1, h2⟩ := ih h
      exact ⟨List.mem_cons_of_mem _ h1, List.mem_cons_of_mem _ h2⟩

/-- Membership is preserved by the date sort. -/
theorem sort_by_date_mem {e : TimelineEvent} {l : List TimelineEvent}
    (h : e ∈ sort_by_date l) : e ∈ l := by
  rw [sort_by_date, List.mem_mergeSort] at h
  exact h

/-! ## Claim C3: confidence of the four timeline checks -/

/-- C3 amended: every finding of the four timeline checks carries
confidence `min(conf1, conf2) * factor` for two events of the input
(factors 0.9, 0.8, 0.9, 0.85 — each inside [0.8, 0.9]), the minimum of
the two extraction confidences rather than their product. -/
theorem c3_confidence_min_times_factor :
    (∀ (events : List TimelineEvent), ∀ i ∈ check_chronological_order events,
      ∃ e1 ∈ events, ∃ e2 ∈ events,
        i.confidence = min e1.confidence e2.confidence * (9/10)) ∧
    (∀ (events : List TimelineEvent), ∀ i ∈ check_completion_conflicts events,
      ∃ e1 ∈ events, ∃ e2 ∈ events,
        i.confidence = min e1.confidence e2.confidence * (4/5)) ∧
    (∀ (events : List TimelineEvent), ∀ i ∈ check_impossible_timelines events,
      ∃ e1 ∈ events, ∃ e2 ∈ events,
        i.confidence = min e1.confidence e2.confidence * (9/10)) ∧
    (∀ (events : List TimelineEvent), ∀ i ∈ check_deadline_violations events,
      ∃ e1 ∈ events, ∃ e2 ∈ events,
        i.confidence = min e1.confidence e2.confidence * (17/20)) ∧
    ((4/5 : ℚ) ≤ 9/10 ∧ (4/5 : ℚ) ≤ 4/5 ∧ (4/5 : ℚ) ≤ 17/20 ∧
      (9/10 : ℚ) ≤ 9/10 ∧ (4/5 : ℚ) ≤ 9/10 ∧ (17/20 : ℚ) ≤ 9/10) := by
  refine ⟨?_, ?_, ?_, ?_, by norm_num⟩
  · intro events i hi
    simp only [check_chronological_order, List.mem_filterMap] at hi
    obtain ⟨p, hp, hcond⟩ := hi
    split at hcond
    · obtain ⟨h1, h2⟩ := pairs_after_mem hp
      obtain rfl := Option.some.inj hcond
      exact ⟨p.1, h1, p.2, h2, rfl⟩
    · simp at hcond
  · intro events i hi
    simp only [check_completion_conflicts, List.mem_filterMap] at hi
    obtain ⟨p, hp, hcond⟩ := hi
    rw [List.mem_flatMap] at hp
    obtain ⟨ce, hce, hp2⟩ := hp
    rw [List.mem_map] at hp2
    obtain ⟨oe, hoe, rfl⟩ := hp2
    split at hcond
    · obtain rfl := Option.some.inj hcond
      exact ⟨ce, (List.mem_filter.mp hce).1, oe, (List.mem_filter.mp hoe).1, rfl⟩
    · simp at hcond
  · intro events i hi
    simp only [check_impossible_timelines, List.mem_flatMap] at hi
    obtain ⟨s, hs, hi2⟩ := hi
    split at hi2
    · simp at hi2
    · rw [List.mem_filterMap] at hi2
      obtain ⟨p, hp, hcond⟩ := hi2
      obtain ⟨e1, e2⟩ := p
      obtain ⟨hz1, hz2⟩ := List.of_mem_zip hp
      have h1 : e1 ∈ events :=
        (List.mem_filter.mp (sort_by_date_mem hz1)).1
      have h2 : e2 ∈ events :=
        (List.mem_filter.mp (sort_by_date_mem (List.mem_of_mem_tail hz2))).1
      split at hcond
      · obtain rfl := Option.some.inj hcond
        exact ⟨e1, h1, e2, h2, rfl⟩
      · simp at hcond
  · intro events i hi
    simp only [check_deadline_violations, List.mem_filterMap] at hi
    obtain ⟨p, hp, hcond⟩ := hi
    rw [List.mem_flatMap] at hp
    obtain ⟨d, hd, hp2⟩ := hp
    rw [List.mem_map] at hp2
    obtain ⟨f, hf, rfl⟩ := hp2
    split at hcond
    · obtain rfl := Option.some.inj hcond
      exact ⟨d, (List.mem_filter.mp hd).1, f, (List.mem_filter.mp hf).1, rfl⟩
    · simp at hcond

/-- Future event on slide 1, dated before the related past event,
extraction confidence 0.5. -/
def c3_event_future : TimelineEvent :=
  ⟨1, 100, "project launch [DATE]", "project launch planned", "future", 1/2⟩

/-- Related past event on slide 2, extraction confidence 0.5. -/
def c3_event_past : TimelineEvent :=
  ⟨2, 200, "project launch [DATE]", "project launch completed", "past", 1/2⟩

/-- The two sample descriptions reduce to the word set
`{project, launch}` after lowering, splitting and stopword removal. -/
theorem c3_sample_word_sets :
    event_word_set c3_event_future = ["project", "launch"] ∧
    event_word_set c3_event_past = ["project", "launch"] := by
  constructor <;> decide

/-- The two sample events pass the relatedness test: full word overlap
plus the project-vocabulary bonus. -/
theorem c3_sample_related :
    events_seem_related c3_event_future c3_event_past = true := by
  simp only [events_seem_related, c3_sample_word_sets.1, c3_sample_word_sets.2]
  norm_num [project_terms]

/-- The chronological guard accepts the two sample events. -/
theorem c3_sample_cond :
    chron_cond c3_event_future c3_event_past = true := by
  simp only [chron_cond, c3_sample_related]
  decide

/-- The chronological check on the two sample events emits exactly the
one expected finding. -/
theorem c3_sample_check_eval :
    check_chronological_order [c3_event_future, c3_event_past] =
      [chron_issue c3_event_future c3_event_past] := by
  simp [check_chronological_order, pairs_after, c3_sample_cond]

/-- Counterexample to C3 as stated: the chronological check on these two
related events (confidences both 0.5) emits one finding with confidence
`min(0.5, 0.5) * 0.9 = 0.45`, which exceeds even `0.9 * (0.5 * 0.5)`,
the largest value any product-based formula with a factor in [0.8, 0.9]
could give. -/
theorem c3_confidence_is_not_product :
    c3_event_future.confidence = 1/2 ∧
    c3_event_past.confidence = 1/2 ∧
    (check_chronological_order [c3_event_future, c3_event_past]).map
        (fun i => i.confidence) = [9/20] ∧
    (9/10 : ℚ) * (1/2 * (1/2)) < 9/20 := by
  refine ⟨rfl, rfl, ?_, by norm_num⟩
  rw [c3_sample_check_eval]
  simp only [List.map_cons, List.map_nil]
  norm_num [chron_issue, c3_event_future, c3_event_past]

/-- Witness for C3: instantiating the amended theorem on the two sample
events pins the emitted confidence at `0.45 = min(0.5, 0.5) * 0.9`. -/
theorem c3_confidence_min_times_factor_witness :
    (chron_issue c3_event_future c3_event_past).confidence = 9/20 := by
  obtain ⟨e1, h1, e2, h2, hconf⟩ :=
    c3_confidence_min_times_factor.1 [c3_event_future, c3_event_past]
      (chron_issue c3_event_future c3_event_past)
      (by rw [c3_sample_check_eval]; simp)
  have hc1 : e1.confidence = 1/2 := by
    rcases List.mem_cons.mp h1 with h | h
    · rw [h]; rfl
    · rw [List.mem_singleton.mp h]; rfl
  have hc2 : e2.confidence = 1/2 := by
    rcases List.mem_cons.mp h2 with h | h
    · rw [h]; rfl
    · rw [List.mem_singleton.mp h]; rfl
  rw [hconf, hc1, hc2]
  norm_num

/-! ## Claim C7: the sane calendar window -/

/-- C7: the fiscal-quarter branch of `_parse_date` bypasses
`_is_reasonable_date` — `"Q1 1950"` parses to 1950-02-15, a date outside
the 1980..current_year+30 window, and is returned rather than discarded;
every non-quarter string, by contrast, is filtered through the window
after `dateparser` parsing. -/
theorem c7_quarter_date_bypasses_window :
    parse_date 2026 (fun _ => none) "Q1 1950" = some ⟨1950, 2, 15⟩ ∧
    is_reasonable_date 2026 ⟨1950, 2, 15⟩ = false ∧
    (∀ (current_year : ℕ) (dp : String → Option CalDate) (s : String) (d : CalDate),
      match_quarter s = none → parse_date current_year dp s = some d →
      is_reasonable_date current_year d = true) := by
  refine ⟨by decide, by decide, ?_⟩
  intro current_year dp s d hq hp
  simp only [parse_date, hq] at hp
  cases hdp : dp s with
  | none => rw [hdp] at hp; simp at hp
  | some d0 =>
    rw [hdp] at hp
    have hp2 : (if is_reasonable_date current_year d0 = true
        then some d0 else none) = some d := hp
    by_cases hr : is_reasonable_date current_year d0 = true
    · rw [if_pos hr] at hp2
      obtain rfl := Option.some.inj hp2
      exact hr
    · rw [if_neg hr] at hp2
      simp at hp2

/-- Witness for C7's dateparser clause: a non-quarter string whose
parsed date lies inside the window is returned, and the window check
holds for it. -/
theorem c7_quarter_date_bypasses_window_witness :
    is_reasonable_date 2026 ⟨2000, 1, 1⟩ = true :=
  c7_quarter_date_bypasses_window.2.2 2026 (fun _ => some ⟨2000, 1, 1⟩)
    "June 2000" ⟨2000, 1, 1⟩ (by decide) (by decide)

/-! ## Textual contradiction detector (`detectors/textual.py`) -/

/-- The degenerate-input guard of `_cosine_similarity`:
`not vec1 or not vec2 or len(vec1) != len(vec2)`. -/
def cosine_guard (vec1 vec2 : List ℚ) : Bool :=
  vec1.isEmpty || vec2.isEmpty || !(vec1.length == vec2.length)

/-- The dot product `sum(a * b for a, b in zip(vec1, vec2))`. -/
def dot_product (vec1 vec2 : List ℚ) : ℚ :=
  ((vec1.zip vec2).map (fun p => p.1 * p.2)).sum

/-- The squared magnitude `sum(a * a for a in vec)`; the code takes its
`math.sqrt` to form the magnitude. -/
def sum_squares (vec : List ℚ) : ℚ :=
  (vec.map (fun a => a * a)).sum

/-- Specification relation of `_cosine_similarity`: the guard and the
zero-magnitude cases return 0.0 (a magnitude `sqrt(S)` is zero exactly
when `S` is zero, `S` being a sum of squares), otherwise the result is
`dot / (sqrt(S1) * sqrt(S2))`.  The square roots are real, so the
function is embedded as a relation on its return value. -/
def is_cosine_similarity (vec1 vec2 : List ℚ) (r : ℝ) : Prop :=
  if cosine_guard vec1 vec2 then r = 0
  else if sum_squares vec1 = 0 ∨ sum_squares vec2 = 0 then r = 0
  else r = ((dot_product vec1 vec2 : ℚ) : ℝ) /
    (Real.sqrt ((sum_squares vec1 : ℚ) : ℝ) * Real.sqrt ((sum_squares vec2 : ℚ) : ℝ))

/-- A sum of squares is nonnegative. -/
theorem sum_squares_nonneg (v : List ℚ) : 0 ≤ sum_squares v := by
  induction v with
  | nil => simp [sum_squares]
  | cons a v ih =>
    have hstep : sum_squares (a :: v) = a * a + sum_squares v := by
      simp [sum_squares]
    rw [hstep]
    have := mul_self_nonneg a
    linarith

/-- The dot product of a vector with itself is its sum of squares. -/
theorem dot_product_self (v : List ℚ) : dot_product v v = sum_squares v := by
  induction v with
  | nil => simp [dot_product, sum_squares]
  | cons a v ih =>
    simp only [dot_product, sum_squares, List.zip_cons_cons, List.map_cons,
      List.sum_cons] at *
    rw [ih]

/-! ## Claim C5: cosine similarity -/

/-- C5: the cosine similarity is 0 whenever the guard fires (empty
vector or dimension mismatch) or a magnitude is zero; on nonzero
equal-length vectors it is `dot / (|v1| * |v2|)`; identical nonzero
vectors give 1; orthogonal vectors give 0; and the relation determines
the value uniquely. -/
theorem c5_cosine_similarity_spec :
    (∀ (v1 v2 : List ℚ), cosine_guard v1 v2 = true → is_cosine_similarity v1 v2 0) ∧
    (∀ (v1 v2 : List ℚ), sum_squares v1 = 0 ∨ sum_squares v2 = 0 →
      is_cosine_similarity v1 v2 0) ∧
    (∀ (v1 v2 : List ℚ), cosine_guard v1 v2 = false →
      sum_squares v1 ≠ 0 → sum_squares v2 ≠ 0 →
      is_cosine_similarity v1 v2
        (((dot_product v1 v2 : ℚ) : ℝ) /
          (Real.sqrt ((sum_squares v1 : ℚ) : ℝ) *
            Real.sqrt ((sum_squares v2 : ℚ) : ℝ)))) ∧
    (∀ (v : List ℚ), v ≠ [] → sum_squares v ≠ 0 → is_cosine_similarity v v 1) ∧
    (∀ (v1 v2 : List ℚ), dot_product v1 v2 = 0 → is_cosine_similarity v1 v2 0) ∧
    (∀ (v1 v2 : List ℚ) (r r' : ℝ), is_cosine_similarity v1 v2 r →
      is_cosine_similarity v1 v2 r' → r = r') := by
  refine ⟨?_, ?_, ?_, ?_, ?_, ?_⟩
  · intro v1 v2 hg
    simp [is_cosine_similarity, hg]
  · intro v1 v2 hz
    unfold is_cosine_similarity
    by_cases hg : cosine_guard v1 v2 = true
    · rw [if_pos hg]
    · rw [if_neg hg, if_pos hz]
  · intro v1 v2 hg h1 h2
    unfold is_cosine_similarity
    rw [if_neg (by simp [hg]), if_neg (by tauto)]
  · intro v hne hz
    unfold is_cosine_similarity
    have hg : cosine_guard v v = false := by
      cases v with
      | nil => exact absurd rfl hne
      | cons a l => simp [cosine_guard]
    have hpos : 0 < sum_squares v := (sum_squares_nonneg v).lt_of_ne (Ne.symm hz)
    have hposR : (0:ℝ) < ((sum_squares v : ℚ) : ℝ) := by exact_mod_cast hpos
    rw [if_neg (by simp [hg]), if_neg (by tauto)]
    rw [dot_product_self, Real.mul_self_sqrt hposR.le, div_self (ne_of_gt hposR)]
  · intro v1 v2 hd
    unfold is_cosine_similarity
    by_cases hg : cosine_guard v1 v2 = true
    · rw [if_pos hg]
    · rw [if_neg hg]
      by_cases hz : sum_squares v1 = 0 ∨ sum_squares v2 = 0
      · rw [if_pos hz]
      · rw [if_neg hz, hd]
        simp
  · intro v1 v2 r r' h h'
    unfold is_cosine_similarity at h h'
    by_cases hg : cosine_guard v1 v2 = true
    · rw [if_pos hg] at h h'
      rw [h, h']
    · rw [if_neg hg] at h h'
      by_cases hz : sum_squares v1 = 0 ∨ sum_squares v2 = 0
      · rw [if_pos hz] at h h'
        rw [h, h']
      · rw [if_neg hz] at h h'
        rw [h, h']

/-- Witness for C5: an empty vector gives 0, identical nonzero vectors
give 1, orthogonal vectors give 0. -/
theorem c5_cosine_similarity_spec_witness :
    is_cosine_similarity [] [1] 0 ∧
    is_cosine_similarity [1, 0] [1, 0] 1 ∧
    is_cosine_similarity [1, 0] [0, 1] 0 :=
  ⟨c5_cosine_similarity_spec.1 [] [1] (by decide),
   c5_cosine_similarity_spec.2.2.2.1 [1, 0] (by decide)
     (by norm_num [sum_squares]),
   c5_cosine_similarity_spec.2.2.2.2.1 [1, 0] [0, 1]
     (by norm_num [dot_product])⟩

/-! ## Claim C6: the embedding pre-filter -/

/-- Decidable form of the float comparison
`cosine_similarity(v1, v2) >= threshold` used by the pre-filter: for a
positive threshold the division-by-square-roots comparison is equivalent
to this square-free rational test (`sim_at_least_iff` below). -/
def sim_at_least (v1 v2 : List ℚ) (t : ℚ) : Bool :=
  if cosine_guard v1 v2 then decide (t ≤ 0)
  else if sum_squares v1 = 0 ∨ sum_squares v2 = 0 then decide (t ≤ 0)
  else decide (0 ≤ dot_product v1 v2 ∧
    t ^ 2 * (sum_squares v1 * sum_squares v2) ≤ (dot_product v1 v2) ^ 2)

/-- Correctness of the decidable threshold test against the real-valued
cosine similarity, for positive thresholds. -/
theorem sim_at_least_iff (v1 v2 : List ℚ) (t : ℚ) (ht : 0 < t) (r : ℝ)
    (h : is_cosine_similarity v1 v2 r) :
    sim_at_least v1 v2 t = true ↔ ((t : ℚ) : ℝ) ≤ r := by
  have htR : (0:ℝ) < ((t : ℚ) : ℝ) := by exact_mod_cast ht
  have hnt : ¬(t ≤ 0) := not_le.mpr ht
  have hntR : ¬(((t : ℚ) : ℝ) ≤ 0) := not_le.mpr htR
  unfold is_cosine_similarity at h
  unfold sim_at_least
  by_cases hg : cosine_guard v1 v2 = true
  · rw [if_pos hg] at h ⊢
    rw [h]
    simp [hnt, hntR]
  · rw [if_neg hg] at h ⊢
    by_cases hz : sum_squares v1 = 0 ∨ sum_squares v2 = 0
    · rw [if_pos hz] at h ⊢
      rw [h]
      simp [hnt, hntR]
    · rw [if_neg hz] at h ⊢
      obtain ⟨hz1, hz2⟩ := not_or.mp hz
      have hS1 : 0 < sum_squares v1 := (sum_squares_nonneg v1).lt_of_ne (Ne.symm hz1)
      have hS2 : 0 < sum_squares v2 := (sum_squares_nonneg v2).lt_of_ne (Ne.symm hz2)
      have hS1R : (0:ℝ) < ((sum_squares v1 : ℚ) : ℝ) := by exact_mod_cast hS1
      have hS2R : (0:ℝ) < ((sum_squares v2 : ℚ) : ℝ) := by exact_mod_cast hS2
      have hr1 : (0:ℝ) < Real.sqrt ((sum_squares v1 : ℚ) : ℝ) := Real.sqrt_pos.mpr hS1R
      have hr2 : (0:ℝ) < Real.sqrt ((sum_squares v2 : ℚ) : ℝ) := Real.sqrt_pos.mpr hS2R
      have hMpos : (0:ℝ) < Real.sqrt ((sum_squares v1 : ℚ) : ℝ) *
          Real.sqrt ((sum_squares v2 : ℚ) : ℝ) := mul_pos hr1 hr2
      have hM2 : (Real.sqrt ((sum_squares v1 : ℚ) : ℝ) *
          Real.sqrt ((sum_squares v2 : ℚ) : ℝ)) ^ 2 =
          ((sum_squares v1 : ℚ) : ℝ) * ((sum_squares v2 : ℚ) : ℝ) := by
        rw [mul_pow, Real.sq_sqrt hS1R.le, Real.sq_sqrt hS2R.le]
      rw [h, decide_eq_true_eq, le_div_iff₀ hMpos]
      constructor
      · rintro ⟨hd, hsq⟩
        have hdR : (0:ℝ) ≤ ((dot_product v1 v2 : ℚ) : ℝ) := by exact_mod_cast hd
        refine le_of_pow_le_pow_left₀ two_ne_zero hdR ?_
        rw [mul_pow, hM2]
        exact_mod_cast hsq
      · intro hle
        have htM : (0:ℝ) < ((t : ℚ) : ℝ) * (Real.sqrt ((sum_squares v1 : ℚ) : ℝ) *
            Real.sqrt ((sum_squares v2 : ℚ) : ℝ)) := mul_pos htR hMpos
        have hdR : (0:ℝ) ≤ ((dot_product v1 v2 : ℚ) : ℝ) := le_trans htM.le hle
        refine ⟨by exact_mod_cast hdR, ?_⟩
        have hsqR := pow_le_pow_left₀ htM.le hle 2
        rw [mul_pow, hM2] at hsqR
        have hgoal : ((t : ℚ) : ℝ) ^ 2 * (((sum_squares v1 : ℚ) : ℝ) *
            ((sum_squares v2 : ℚ) : ℝ)) ≤ ((dot_product v1 v2 : ℚ) : ℝ) ^ 2 := hsqR
        exact_mod_cast hgoal

/-- Index pairs `(i, j)` with `i < j`, the iteration order of the
double loop `for i in range(n): for j in range(i + 1, n)`. -/
def claim_pair_indices (n : ℕ) : List (ℕ × ℕ) :=
  (List.range n).flatMap (fun i =>
    ((List.range n).filter (fun j => i < j)).map (fun j => (i, j)))

/-- The pair filter of `_find_semantic_contradictions` (the `detect` in
effect calls it): keep a cross-slide pair only when the embedding cosine
similarity reaches the threshold.  A business claim is the tuple
`(slide_num, text)` as in `_extract_business_claims`. -/
def pairs_to_analyze (claims : List (ℕ × String)) (embeddings : List (List ℚ))
    (threshold : ℚ) : List (ℕ × ℕ) :=
  (claim_pair_indices claims.length).filter (fun p =>
    !((claims.getD p.1 (0, "")).1 == (claims.getD p.2 (0, "")).1) &&
      sim_at_least (embeddings.getD p.1 []) (embeddings.getD p.2 []) threshold)

/-- Modelled from the spec: `GeminiClient.get_embeddings` is called by
`TextContradictionDetector` but is not defined in `src/gemini_wrapper.py`
(only its caller exists in the source); the spec describes it as a
secondary embedding capability taking a list of strings and returning
one fixed-length numeric vector per string, order-preserving.  It enters
the trace as the abstract parameter `get_embeddings`.  The trace records
the embedding batches requested (exactly one, carrying every claim text)
and the index pairs handed to the pairwise contradiction oracle
(`_analyze_contradiction_with_llm`, whose per-pair cache can only skip
repeated text pairs, never add new ones). -/
def find_semantic_contradictions_trace (claims : List (ℕ × String))
    (get_embeddings : List String → List (List ℚ)) (threshold : ℚ) :
    List (List String) × List (ℕ × ℕ) :=
  let claim_texts := claims.map (fun c => c.2)
  let embeddings := get_embeddings claim_texts
  ([claim_texts], pairs_to_analyze claims embeddings threshold)

/-- Every generated index pair is strictly increasing. -/
theorem claim_pair_indices_lt {n : ℕ} {p : ℕ × ℕ}
    (h : p ∈ claim_pair_indices n) : p.1 < p.2 := by
  simp only [claim_pair_indices, List.mem_flatMap, List.mem_map,
    List.mem_filter] at h
  obtain ⟨i, hi, j, ⟨hj, hij⟩, rfl⟩ := h
  simpa using hij

/-- C6: with the default similarity threshold 0.75, the textual
detection run makes exactly one batched embedding request carrying all
claim texts, and every pair passed to the pairwise contradiction oracle
is a cross-slide pair (`i < j`, different slide numbers) whose embedding
cosine similarity is at least 0.75; same-slide pairs never reach the
oracle. -/
theorem c6_embedding_prefilter (claims : List (ℕ × String))
    (get_embeddings : List String → List (List ℚ)) :
    (find_semantic_contradictions_trace claims get_embeddings (3/4)).1 =
      [claims.map (fun c => c.2)] ∧
    (∀ p ∈ (find_semantic_contradictions_trace claims get_embeddings (3/4)).2,
      p.1 < p.2 ∧
      (claims.getD p.1 (0, "")).1 ≠ (claims.getD p.2 (0, "")).1 ∧
      sim_at_least ((get_embeddings (claims.map (fun c => c.2))).getD p.1 [])
        ((get_embeddings (claims.map (fun c => c.2))).getD p.2 []) (3/4) = true ∧
      (∀ r : ℝ, is_cosine_similarity
          ((get_embeddings (claims.map (fun c => c.2))).getD p.1 [])
          ((get_embeddings (claims.map (fun c => c.2))).getD p.2 []) r →
        (((3/4 : ℚ) : ℚ) : ℝ) ≤ r)) := by
  refine ⟨rfl, ?_⟩
  intro p hp
  simp only [find_semantic_contradictions_trace] at hp
  rw [pairs_to_analyze, List.mem_filter] at hp
  obtain ⟨hmem, hcond⟩ := hp
  rw [Bool.and_eq_true] at hcond
  obtain ⟨hslide, hsim⟩ := hcond
  refine ⟨claim_pair_indices_lt hmem, ?_, hsim, ?_⟩
  · simpa using hslide
  · intro r hr
    exact (sim_at_least_iff _ _ (3/4) (by norm_num) r hr).mp hsim

/-- Witness for C6 on two one-hot identical embeddings of claims from
slides 1 and 2: the pair (0, 1) passes the filter and its properties are
obtained from the theorem. -/
theorem c6_embedding_prefilter_witness :
    ((([(1, "a"), (2, "b")] : List (ℕ × String)).getD 0 (0, "")).1 ≠
      (([(1, "a"), (2, "b")] : List (ℕ × String)).getD 1 (0, "")).1) ∧
    sim_at_least [1, 0] [1, 0] (3/4) = true := by
  have h := (c6_embedding_prefilter [(1, "a"), (2, "b")]
      (fun _ => [[1, 0], [1, 0]])).2 (0, 1) ?_
  · exact ⟨h.2.1, h.2.2.1⟩
  · rw [find_semantic_contradictions_trace]
    rw [pairs_to_analyze, List.mem_filter]
    refine ⟨by decide, ?_⟩
    rw [Bool.and_eq_true]
    refine ⟨by decide, ?_⟩
    rw [sim_at_least, if_neg (by decide), if_neg (by norm_num [sum_squares])]
    rw [decide_eq_true_eq]
    norm_num [dot_product, sum_squares]
